import Mathlib

/-!
Shallow embedding of the `web-h3-life` simulation core (`src/core/src/lib.rs`):
a Conway-style cellular automaton over a hexagonal spherical grid.

Modelling choices:
* the external H3 grid capability (`h3o`) is abstracted as a `Grid` structure
  providing `grid_disk(1)` (which, as in H3, contains the center cell) and the
  cell boundary vertices;
* the Rust `HashMap<CellIndex, CellState>` is modelled as an association list
  (`CellMap`); the list order stands for the hash map's arbitrary iteration
  order, and the hash-map invariant of unique keys appears as a `Nodup`
  hypothesis where a proof needs it;
* `f64` longitudes and latitudes are modelled as rationals (`ℚ` has no
  negative zero, so Rust's `is_sign_negative` becomes `< 0`);
* `CellIndex` is opaque in the core — only decidable equality is used — so it
  is modelled as `Nat`.
-/

set_option autoImplicit false

namespace HexLife

/-- `enum CellState { Dead = 0, Alive = 1 }` from the source. -/
inductive CellState where
  | Dead
  | Alive
  deriving DecidableEq

/-- Opaque grid-cell identifier (`h3o::CellIndex`); the core only compares
cells for equality, so `Nat` suffices. -/
abbrev Cell := Nat

/-- A projected vertex as the source builds it: `vec![v.lng(), v.lat()]`. -/
abbrev Point := ℚ × ℚ

/-- The `HashMap<CellIndex, CellState>` held by `Universe`, as an association
list; list order models the (arbitrary) iteration order. -/
abbrev CellMap := List (Cell × CellState)

/-- The external grid capability: `CellIndex::grid_disk(1)` (every cell within
grid distance 1, the center included, as in H3) and `CellIndex::boundary()`
rendered to `(lng, lat)` pairs. -/
structure Grid where
  gridDisk1 : Cell → List Cell
  boundary : Cell → List Point

/-- `HashMap::get`: the state associated with the first entry for a key. -/
def lookup (m : CellMap) (c : Cell) : Option CellState :=
  match m with
  | [] => none
  | (k, s) :: rest => if k = c then some s else lookup rest c

/-- `HashMap::contains_key`. -/
def containsKey (m : CellMap) (c : Cell) : Bool :=
  (lookup m c).isSome

/-- `HashMap::insert`: replace the entry holding the key, or add one. -/
def insert (m : CellMap) (c : Cell) (s : CellState) : CellMap :=
  match m with
  | [] => [(c, s)]
  | (k, t) :: rest => if k = c then (c, s) :: rest else (k, t) :: insert rest c s

/-- `HashMap::remove`. -/
def removeKey (m : CellMap) (c : Cell) : CellMap :=
  m.filter (fun e => e.1 != c)

/-- The predicate of `Universe::live_neighbor_count`'s filter:
`match self.cells.get(c) { Some(&state) => state == CellState::Alive, None => false }`. -/
def isAliveIn (m : CellMap) (n : Cell) : Bool :=
  match lookup m n with
  | some CellState.Alive => true
  | some CellState.Dead => false
  | none => false

/-- `Universe::live_neighbor_count`: counts Alive cells over the whole
`grid_disk(1)` of `c`.  Note the source does **not** filter the center cell
out of the disk here (unlike the neighbor list built inside `tick`).
The Rust `count() as u8` cast never truncates for real H3 disks (≤ 7 cells),
so the count is modelled as `Nat`. -/
def live_neighbor_count (g : Grid) (m : CellMap) (c : Cell) : Nat :=
  ((g.gridDisk1 c).filter (isAliveIn m)).length

/-- The neighbor list built at the top of `tick`'s loop:
`index.grid_disk(1)` with the center filtered out (`filter(|n| n != index)`). -/
def neighborsOf (g : Grid) (c : Cell) : List Cell :=
  (g.gridDisk1 c).filter (fun n => n != c)

/-- The `match (state, num_live_neighbors)` rule table inside `tick`,
with arms in source order; the final arm returns the current state. -/
def nextCellState (s : CellState) (k : Nat) : CellState :=
  match s with
  | CellState.Alive =>
      if k < 2 then CellState.Dead
      else if k = 2 ∨ k = 3 then CellState.Alive
      else if 3 < k then CellState.Dead
      else CellState.Alive
  | CellState.Dead => CellState.Dead

/-- One iteration of the reproduction loop in `tick`: skip neighbors already
tracked in the snapshot, insert untracked neighbors with live-neighbor count
exactly 2 as Alive. -/
def birthStep (g : Grid) (snap : CellMap) (acc : CellMap) (n : Cell) : CellMap :=
  match lookup snap n with
  | some _ => acc
  | none =>
      if live_neighbor_count g snap n = 2 then insert acc n CellState.Alive else acc

/-- The whole reproduction loop for one tracked cell `c`. -/
def birthPass (g : Grid) (snap : CellMap) (acc : CellMap) (c : Cell) : CellMap :=
  (neighborsOf g c).foldl (birthStep g snap) acc

/-- The body of `tick`'s loop for one map entry: run the reproduction loop
over the entry's neighbors, then write the rule-table state for the entry. -/
def tickEntry (g : Grid) (snap : CellMap) (acc : CellMap) (e : Cell × CellState) : CellMap :=
  insert (birthPass g snap acc e.1) e.1
    (nextCellState e.2 (live_neighbor_count g snap e.1))

/-- `Universe::tick`: `next` starts as a clone of the current map, the loop
runs over the (snapshot) entries, and the result replaces the map. -/
def tick (g : Grid) (m : CellMap) : CellMap :=
  m.foldl (tickEntry g m) m

/-- MAX_LNG from the source. -/
def MAX_LNG : ℚ := 180

/-- The antimeridian scan in `impl Into<Geometry> for Index`: some consecutive
pair of the original vertex chain satisfies
`(max(lng1,lng2) - min(lng1,lng2)).abs() > MAX_LNG` (the `break` is mere
short-circuiting). -/
def isSwapSign (vertices : List Point) : Bool :=
  (vertices.zip vertices.tail).any (fun p =>
    decide (MAX_LNG < |max p.1.1 p.2.1 - min p.1.1 p.2.1|))

/-- The longitude shift applied when straddling is detected:
`if v[0].is_sign_negative() { v[0] += 2.0 * MAX_LNG }`. -/
def shiftNegative (vertices : List Point) : List Point :=
  vertices.map (fun v => if v.1 < 0 then (v.1 + 2 * MAX_LNG, v.2) else v)

/-- `vertices.push(vertices[0].clone())`.  The Rust indexing panics on an
empty chain; H3 cell boundaries always have at least five vertices, so the
empty case is unreachable and modelled as the empty ring. -/
def closeRing (vertices : List Point) : List Point :=
  match vertices with
  | [] => []
  | v :: rest => (v :: rest) ++ [v]

/-- The whole of `impl Into<Geometry> for Index` applied to a boundary chain:
optional antimeridian shift, then ring closing. -/
def projectBoundary (vertices : List Point) : List Point :=
  closeRing (if isSwapSign vertices then shiftNegative vertices else vertices)

/-- One cell's polygon ring as produced inside `render`. -/
def cellToRing (g : Grid) (c : Cell) : List Point :=
  projectBoundary (g.boundary c)

/-- `state == CellState::Alive` on a map entry. -/
def isAliveEntry (e : Cell × CellState) : Bool :=
  match e.2 with
  | CellState.Alive => true
  | CellState.Dead => false

/-- `state == CellState::Dead` on a map entry. -/
def isDeadEntry (e : Cell × CellState) : Bool :=
  match e.2 with
  | CellState.Dead => true
  | CellState.Alive => false

/-- The feature list built by `Universe::render`: one polygon ring per Alive
entry, in map iteration order (a feature carries no other data: its `bbox`,
`id`, `properties` and `foreign_members` are all `None`). -/
def renderFeatures (g : Grid) (m : CellMap) : List (List Point) :=
  (m.filter isAliveEntry).map (fun e => cellToRing g e.1)

/-- The tombstone list collected by `Universe::render`: keys of Dead entries. -/
def renderTombstones (m : CellMap) : List Cell :=
  (m.filter isDeadEntry).map (fun e => e.1)

/-- The keys of the Alive entries, in map iteration order: the cells `render`
serializes, one feature each. -/
def aliveCells (m : CellMap) : List Cell :=
  (m.filter isAliveEntry).map (fun e => e.1)

/-- `Universe::render`: the serialized feature list together with the map
after tombstone removal. -/
def render (g : Grid) (m : CellMap) : List (List Point) × CellMap :=
  (renderFeatures g m, (renderTombstones m).foldl removeKey m)

/-- Modelled from the spec: the grid capability (`h3o::Resolution::try_from`,
not part of this repository) accepts exactly the H3 resolutions 0..=15 and
fails on any other value. -/
def resolutionTryFrom (r : Nat) : Option Nat :=
  if r ≤ 15 then some r else none

/-- Outcome of `Universe::new`: the source wraps `Resolution::try_from` in
`unsafe { .. .unwrap_unchecked() }`, so an unsupported resolution is undefined
behavior — no error value exists in the function's signature. -/
inductive NewOutcome where
  | ok (cells : CellMap)
  | undefinedBehavior
  deriving DecidableEq

/-- `Universe::new`: convert the resolution (undefined behavior when the
capability rejects it), then insert every sampled cell as Alive.  Sampling and
cell indexing are external, so the sampled cells arrive as a parameter. -/
def universeNew (sampled : List Cell) (resolution : Nat) : NewOutcome :=
  match resolutionTryFrom resolution with
  | none => NewOutcome.undefinedBehavior
  | some _ =>
      NewOutcome.ok (sampled.foldl (fun acc c => insert acc c CellState.Alive) [])

/-- The neighbor count the specification describes: Alive cells at grid
distance exactly 1 from `c`, the cell `c` itself excluded. -/
def claimedNeighborCount (g : Grid) (m : CellMap) (c : Cell) : Nat :=
  ((neighborsOf g c).filter (isAliveIn m)).length

/-- The specification's antimeridian test: some consecutive pair of the
original open chain has longitudes differing in absolute value by more
than 180°. -/
def claimStraddles (vertices : List Point) : Prop :=
  ∃ p ∈ vertices.zip vertices.tail, MAX_LNG < |p.1.1 - p.2.1|

/-- The specification's shift: add 360° to every vertex with negative
longitude, leave non-negative longitudes unchanged. -/
def claimShift (v : Point) : Point :=
  if v.1 < 0 then (v.1 + 360, v.2) else v

/-- Pointwise description of the map mid-way through `tick`'s fold, after the
entries of `done` have been processed against snapshot `m`. -/
def midSpec (g : Grid) (m : CellMap) (done : CellMap) (c : Cell) : Option CellState :=
  match lookup m c with
  | some s =>
      if c ∈ done.map Prod.fst then
        some (nextCellState s (live_neighbor_count g m c))
      else some s
  | none =>
      if (∃ e ∈ done, c ∈ neighborsOf g e.1) ∧ live_neighbor_count g m c = 2 then
        some CellState.Alive
      else none

/-- Pointwise description of the post-tick map: tracked cells get the
rule-table state, untracked cells are born Alive exactly when discovered as
the neighbor of some tracked cell with live-neighbor count 2. -/
def tickSpec (g : Grid) (m : CellMap) (c : Cell) : Option CellState :=
  match lookup m c with
  | some s => some (nextCellState s (live_neighbor_count g m c))
  | none =>
      if (∃ e ∈ m, c ∈ neighborsOf g e.1) ∧ live_neighbor_count g m c = 2 then
        some CellState.Alive
      else none

/-- A toy grid in which the cells of one list are mutually adjacent and every
other cell is isolated; it is symmetric and every disk contains its center,
like an H3 grid patch. -/
def mutualGrid (cells : List Cell) : Grid where
  gridDisk1 := fun c => if c ∈ cells then cells else [c]
  boundary := fun _ => []

/-- Concrete grid for the neighbor-count evaluation: `grid_disk(0) = [0,1,2]`. -/
def gC1 : Grid where
  gridDisk1 := fun c => if c = 0 then [0, 1, 2] else [c]
  boundary := fun _ => []

/-- A universe holding the single Alive cell 0. -/
def mC1 : CellMap := [(0, CellState.Alive)]

/-- Two mutually adjacent cells. -/
def gPair : Grid := mutualGrid [0, 1]

/-- Both cells of the pair Alive. -/
def mPair : CellMap := [(0, CellState.Alive), (1, CellState.Alive)]

/-- The pair map in the opposite iteration order. -/
def mPairRev : CellMap := [(1, CellState.Alive), (0, CellState.Alive)]

/-- Three mutually adjacent cells (1, 2 and 5). -/
def gTri : Grid := mutualGrid [1, 2, 5]

/-- Cells 1 and 2 Alive, cell 5 tracked Dead. -/
def mTriDead : CellMap := [(1, CellState.Alive), (2, CellState.Alive), (5, CellState.Dead)]

/-- Cells 1 and 2 Alive, cell 5 untracked. -/
def mTriLive : CellMap := [(1, CellState.Alive), (2, CellState.Alive)]

/-- A map holding one Alive and one Dead entry. -/
def mMixed : CellMap := [(0, CellState.Alive), (1, CellState.Dead)]

/-- Concrete grid with a nonempty triangular boundary for every cell. -/
def gBound : Grid where
  gridDisk1 := fun c => [c]
  boundary := fun _ => [(0, 0), (1, 0), (0, 1)]

/-- A synthetic antimeridian-straddling boundary chain. -/
def straddleChain : List Point := [(179, 0), (-179, 1), (-178, -1)]

theorem lookup_insert (m : CellMap) (c : Cell) (s : CellState) (c' : Cell) :
    lookup (insert m c s) c' = if c = c' then some s else lookup m c' := by
  induction m with
  | nil => simp [insert, lookup]
  | cons e rest ih =>
      obtain ⟨k, t⟩ := e
      by_cases hk : k = c
      · subst hk
        by_cases hc : k = c' <;> simp [insert, lookup, hc]
      · by_cases hkc : k = c'
        · have hcc : ¬ c = c' := fun h => hk (hkc.trans h.symm)
          have hcc' : ¬ c' = c := fun h => hcc h.symm
          simp [insert, lookup, hk, hkc, hcc, hcc']
        · simp [insert, lookup, hk, hkc, ih]

theorem lookup_isSome_iff (m : CellMap) (c : Cell) :
    (lookup m c).isSome ↔ c ∈ m.map Prod.fst := by
  induction m with
  | nil => simp [lookup]
  | cons e rest ih =>
      obtain ⟨k, t⟩ := e
      by_cases hk : k = c
      · subst hk; simp [lookup]
      · have : ¬ c = k := fun h => hk h.symm
        simp [lookup, hk, ih, this]

theorem mem_of_lookup_eq_some {m : CellMap} {c : Cell} {s : CellState}
    (h : lookup m c = some s) : (c, s) ∈ m := by
  induction m with
  | nil => simp [lookup] at h
  | cons e rest ih =>
      obtain ⟨k, t⟩ := e
      by_cases hk : k = c
      · subst hk
        simp only [lookup, if_pos rfl] at h
        rcases h with h
        first
        | exact h ▸ List.mem_cons_self _ _
        | (simp at h; exact h ▸ List.mem_cons_self _ _)
      · simp only [lookup, if_neg hk] at h
        exact List.mem_cons_of_mem _ (ih h)

theorem lookup_of_mem_nodup {m : CellMap} (hnd : (m.map Prod.fst).Nodup)
    {c : Cell} {s : CellState} (h : (c, s) ∈ m) : lookup m c = some s := by
  induction m with
  | nil => simp at h
  | cons e rest ih =>
      obtain ⟨k, t⟩ := e
      simp only [List.map_cons, List.nodup_cons] at hnd
      rcases List.mem_cons.mp h with h | h
      · obtain ⟨hc, hs⟩ := Prod.mk.injEq .. ▸ h
        simp [lookup, hc.symm, hs]
      · have hkc : ¬ k = c := by
          intro hkc
          exact hnd.1 (hkc ▸ (List.mem_map_of_mem Prod.fst h))
        simp [lookup, hkc, ih hnd.2 h]

theorem isAliveIn_eq_true_iff (m : CellMap) (n : Cell) :
    isAliveIn m n = true ↔ lookup m n = some CellState.Alive := by
  unfold isAliveIn
  cases h : lookup m n with
  | none => simp
  | some s => cases s <;> simp

theorem isAliveIn_congr {m₁ m₂ : CellMap} (h : ∀ x, lookup m₁ x = lookup m₂ x)
    (n : Cell) : isAliveIn m₁ n = isAliveIn m₂ n := by
  unfold isAliveIn
  rw [h n]

theorem live_neighbor_count_congr (g : Grid) {m₁ m₂ : CellMap}
    (h : ∀ x, lookup m₁ x = lookup m₂ x) (c : Cell) :
    live_neighbor_count g m₁ c = live_neighbor_count g m₂ c := by
  unfold live_neighbor_count
  have : (g.gridDisk1 c).filter (isAliveIn m₁) = (g.gridDisk1 c).filter (isAliveIn m₂) :=
    List.filter_congr (fun x _ => isAliveIn_congr h x)
  rw [this]

theorem length_filter_filter_ne (p : Cell → Bool) (c : Cell) (hp : p c = false)
    (l : List Cell) :
    ((l.filter (fun n => n != c)).filter p).length = (l.filter p).length := by
  rw [List.filter_comm]
  have heq : (l.filter p).filter (fun n => n != c) = l.filter p := by
    apply List.filter_eq_self.mpr
    intro a ha
    have hpa : p a = true := List.of_mem_filter ha
    have hac : a ≠ c := by
      intro h
      rw [h, hp] at hpa
      exact Bool.noConfusion hpa
    simpa [bne_iff_ne] using hac
  rw [heq]

theorem claimedNeighborCount_eq (g : Grid) (m : CellMap) (c : Cell)
    (h : isAliveIn m c = false) :
    claimedNeighborCount g m c = live_neighbor_count g m c := by
  unfold claimedNeighborCount live_neighbor_count neighborsOf
  exact length_filter_filter_ne (isAliveIn m) c h (g.gridDisk1 c)

theorem foldl_birthStep_lookup (g : Grid) (snap : CellMap) (ns : List Cell) :
    ∀ (acc : CellMap) (c : Cell),
      lookup (ns.foldl (birthStep g snap) acc) c =
        if lookup snap c = none ∧ c ∈ ns ∧ live_neighbor_count g snap c = 2
        then some CellState.Alive else lookup acc c := by
  induction ns with
  | nil => intro acc c; simp
  | cons n ns ih =>
      intro acc c
      rw [List.foldl_cons, ih]
      by_cases hcn : c = n
      · subst hcn
        cases hsnap : lookup snap c with
        | some s => simp [birthStep, hsnap]
        | none =>
            by_cases hk : live_neighbor_count g snap c = 2
            · simp [birthStep, hsnap, hk, lookup_insert]
            · simp [birthStep, hsnap, hk]
      · have hb : lookup (birthStep g snap acc n) c = lookup acc c := by
          unfold birthStep
          cases hsnap : lookup snap n with
          | some s => rfl
          | none =>
              by_cases hk : live_neighbor_count g snap n = 2
              · have hnc : ¬ n = c := fun h => hcn h.symm
                simp [hk, lookup_insert, hnc]
              · simp [hk]
        rw [hb]
        have hmem : (c ∈ n :: ns) ↔ (c ∈ ns) := by simp [hcn]
        simp [hmem]

theorem tickEntry_lookup (g : Grid) (snap : CellMap) (acc : CellMap)
    (e : Cell × CellState) (c : Cell) :
    lookup (tickEntry g snap acc e) c =
      if e.1 = c then some (nextCellState e.2 (live_neighbor_count g snap e.1))
      else if lookup snap c = none ∧ c ∈ neighborsOf g e.1 ∧
              live_neighbor_count g snap c = 2
           then some CellState.Alive
           else lookup acc c := by
  unfold tickEntry birthPass
  rw [lookup_insert, foldl_birthStep_lookup]

theorem foldl_tickEntry_midSpec (g : Grid) (m : CellMap)
    (hnd : (m.map Prod.fst).Nodup) (todo : CellMap) :
    ∀ (done acc : CellMap), m = done ++ todo →
      (∀ c, lookup acc c = midSpec g m done c) →
      ∀ c, lookup (todo.foldl (tickEntry g m) acc) c = midSpec g m (done ++ todo) c := by
  induction todo with
  | nil =>
      intro done acc hm hacc c
      simpa using hacc c
  | cons e rest ih =>
      intro done acc hm hacc c
      have hemem : (e.1, e.2) ∈ m := by
        rw [hm]
        exact List.mem_append_right _ (List.mem_cons_self _ _)
      have hlook : lookup m e.1 = some e.2 := lookup_of_mem_nodup hnd hemem
      have hstep : ∀ c, lookup (tickEntry g m acc e) c = midSpec g m (done ++ [e]) c := by
        intro c
        rw [tickEntry_lookup]
        by_cases hec : e.1 = c
        · subst hec
          have hmem : e.1 ∈ (done ++ [e]).map Prod.fst := by simp
          simp [midSpec, hlook, hmem]
        · have hce : ¬ c = e.1 := fun h => hec h.symm
          cases hmc : lookup m c with
          | some s =>
              have hmemiff : (c ∈ (done ++ [e]).map Prod.fst) ↔ (c ∈ done.map Prod.fst) := by
                simp [hce]
              rw [if_neg hec,
                if_neg (by
                  rintro ⟨hnone, -, -⟩
                  exact Option.noConfusion hnone),
                hacc c]
              simp only [midSpec, hmc]
              exact if_congr hmemiff.symm rfl rfl
          | none =>
              by_cases hk : live_neighbor_count g m c = 2
              · by_cases hbn : c ∈ neighborsOf g e.1
                · rw [if_neg hec, if_pos ⟨rfl, hbn, hk⟩]
                  simp only [midSpec, hmc]
                  rw [if_pos ⟨⟨e, List.mem_append_right _ (List.mem_cons_self _ _), hbn⟩, hk⟩]
                · have hiff : (∃ x ∈ done ++ [e], c ∈ neighborsOf g x.1) ↔
                      (∃ x ∈ done, c ∈ neighborsOf g x.1) := by
                    constructor
                    · rintro ⟨x, hx, hcx⟩
                      rcases List.mem_append.mp hx with hx | hx
                      · exact ⟨x, hx, hcx⟩
                      · rw [List.mem_singleton.mp hx] at hcx
                        exact absurd hcx hbn
                    · rintro ⟨x, hx, hcx⟩
                      exact ⟨x, List.mem_append_left _ hx, hcx⟩
                  rw [if_neg hec,
                    if_neg (by
                      rintro ⟨-, hb, -⟩
                      exact hbn hb),
                    hacc c]
                  simp only [midSpec, hmc]
                  exact if_congr (and_congr_left' hiff.symm) rfl rfl
              · rw [if_neg hec,
                  if_neg (by
                    rintro ⟨-, -, hkk⟩
                    exact hk hkk),
                  hacc c]
                simp only [midSpec, hmc]
                rw [if_neg (by rintro ⟨-, hkk⟩; exact hk hkk),
                  if_neg (by rintro ⟨-, hkk⟩; exact hk hkk)]
      rw [List.foldl_cons]
      have hm' : m = (done ++ [e]) ++ rest := by rw [hm, List.append_assoc]; rfl
      have h := ih (done ++ [e]) (tickEntry g m acc e) hm' hstep c
      rw [h]
      have : (done ++ [e]) ++ rest = done ++ e :: rest := by simp
      rw [this]

theorem tick_lookup (g : Grid) (m : CellMap) (hnd : (m.map Prod.fst).Nodup)
    (c : Cell) : lookup (tick g m) c = tickSpec g m c := by
  have base : ∀ c, lookup m c = midSpec g m [] c := by
    intro c
    unfold midSpec
    cases hmc : lookup m c <;> simp
  have h := foldl_tickEntry_midSpec g m hnd m [] m (by simp) base c
  simp only [List.nil_append] at h
  unfold tick
  rw [h]
  unfold midSpec tickSpec
  cases hmc : lookup m c with
  | some s =>
      have hmem : c ∈ m.map Prod.fst := (lookup_isSome_iff m c).mp (by simp [hmc])
      simp [hmem]
  | none => rfl

theorem exists_entry_iff (g : Grid) (m : CellMap) (c : Cell) :
    (∃ e ∈ m, c ∈ neighborsOf g e.1) ↔
      (∃ t, (lookup m t).isSome ∧ c ∈ neighborsOf g t) := by
  constructor
  · rintro ⟨e, he, hce⟩
    exact ⟨e.1, (lookup_isSome_iff m e.1).mpr (List.mem_map_of_mem Prod.fst he), hce⟩
  · rintro ⟨t, ht, hct⟩
    rcases Option.isSome_iff_exists.mp ht with ⟨s, hs⟩
    exact ⟨(t, s), mem_of_lookup_eq_some hs, hct⟩

theorem foldl_tickEntry_isSome (g : Grid) (snap : CellMap) (l : List (Cell × CellState)) :
    ∀ (acc : CellMap) (c : Cell), (lookup acc c).isSome →
      (lookup (l.foldl (tickEntry g snap) acc) c).isSome := by
  induction l with
  | nil => intro acc c h; exact h
  | cons e rest ih =>
      intro acc c h
      rw [List.foldl_cons]
      apply ih
      rw [tickEntry_lookup]
      by_cases h1 : e.1 = c
      · simp [h1]
      · by_cases h2 : lookup snap c = none ∧ c ∈ neighborsOf g e.1 ∧
            live_neighbor_count g snap c = 2 <;> simp [h1, h2, h]

theorem lookup_removeKey (m : CellMap) (k c : Cell) :
    lookup (removeKey m k) c = if c = k then none else lookup m c := by
  induction m with
  | nil => by_cases h : c = k <;> simp [removeKey, lookup, h]
  | cons e rest ih =>
      obtain ⟨k', t⟩ := e
      by_cases hk : k' = k
      · subst hk
        by_cases hc : c = k'
        · subst hc
          simp [removeKey, List.filter_cons, lookup] at ih ⊢
          simpa using ih
        · have : ¬ k' = c := fun h => hc h.symm
          simp [removeKey, List.filter_cons, lookup, hc, this] at ih ⊢
          simpa [hc] using ih
      · by_cases hc : k' = c
        · subst hc
          have hck : ¬ k' = k := hk
          simp [removeKey, List.filter_cons, lookup, hk, hck]
        · simp [removeKey, List.filter_cons, lookup, hk, hc] at ih ⊢
          exact ih

theorem foldl_removeKey_lookup (ts : List Cell) :
    ∀ (m : CellMap) (c : Cell),
      lookup (ts.foldl removeKey m) c = if c ∈ ts then none else lookup m c := by
  induction ts with
  | nil => intro m c; simp
  | cons t ts ih =>
      intro m c
      rw [List.foldl_cons, ih, lookup_removeKey]
      by_cases hct : c = t
      · subst hct
        by_cases hts : c ∈ ts <;> simp [hts]
      · by_cases hts : c ∈ ts <;> simp [hts, hct]

theorem mem_renderTombstones_iff (m : CellMap) (hnd : (m.map Prod.fst).Nodup)
    (c : Cell) : c ∈ renderTombstones m ↔ lookup m c = some CellState.Dead := by
  unfold renderTombstones
  constructor
  · intro h
    rcases List.mem_map.mp h with ⟨e, he, hfst⟩
    obtain ⟨k, s⟩ := e
    have hmem : (k, s) ∈ m := List.mem_of_mem_filter he
    have hd : isDeadEntry (k, s) = true := List.of_mem_filter he
    have hs : s = CellState.Dead := by
      cases s
      · rfl
      · exact absurd hd (by simp [isDeadEntry])
    rw [← hfst]
    exact lookup_of_mem_nodup hnd (hs ▸ hmem)
  · intro h
    exact List.mem_map.mpr ⟨(c, CellState.Dead),
      List.mem_filter.mpr ⟨mem_of_lookup_eq_some h, by simp [isDeadEntry]⟩, rfl⟩

theorem mem_aliveCells_iff (m : CellMap) (hnd : (m.map Prod.fst).Nodup)
    (c : Cell) : c ∈ aliveCells m ↔ lookup m c = some CellState.Alive := by
  unfold aliveCells
  constructor
  · intro h
    rcases List.mem_map.mp h with ⟨e, he, hfst⟩
    obtain ⟨k, s⟩ := e
    have hmem : (k, s) ∈ m := List.mem_of_mem_filter he
    have ha : isAliveEntry (k, s) = true := List.of_mem_filter he
    have hs : s = CellState.Alive := by
      cases s
      · exact absurd ha (by simp [isAliveEntry])
      · rfl
    rw [← hfst]
    exact lookup_of_mem_nodup hnd (hs ▸ hmem)
  · intro h
    exact List.mem_map.mpr ⟨(c, CellState.Alive),
      List.mem_filter.mpr ⟨mem_of_lookup_eq_some h, by simp [isAliveEntry]⟩, rfl⟩

theorem aliveCells_nodup (m : CellMap) (hnd : (m.map Prod.fst).Nodup) :
    (aliveCells m).Nodup := by
  unfold aliveCells
  have hsub : List.Sublist ((m.filter isAliveEntry).map (fun e => e.1))
      (m.map (fun e => e.1)) :=
    (List.filter_sublist m).map (fun e => e.1)
  exact List.Nodup.sublist hsub hnd

theorem closeRing_eq_append_take (l : List Point) : closeRing l = l ++ l.take 1 := by
  cases l <;> simp [closeRing]

theorem projectBoundary_closed (vs : List Point) (h : vs ≠ []) :
    projectBoundary vs ≠ [] ∧
      (projectBoundary vs).head? = (projectBoundary vs).getLast? := by
  unfold projectBoundary
  have hw : (if isSwapSign vs then shiftNegative vs else vs) ≠ [] := by
    by_cases hs : isSwapSign vs <;> simp [hs, shiftNegative, h]
  cases hws : (if isSwapSign vs then shiftNegative vs else vs) with
  | nil => exact absurd hws hw
  | cons v rest =>
      constructor
      · simp [closeRing]
      · have h1 : (closeRing (v :: rest)).head? = some v := by
          simp [closeRing]
        have h2 : (closeRing (v :: rest)).getLast? = some v := by
          show ((v :: rest) ++ [v]).getLast? = some v
          exact List.getLast?_concat _
        rw [h1, h2]

theorem neighborsOf_symm {g : Grid}
    (hsym : ∀ a b : Cell, a ∈ g.gridDisk1 b ↔ b ∈ g.gridDisk1 a)
    {t c : Cell} : t ∈ neighborsOf g c ↔ c ∈ neighborsOf g t := by
  unfold neighborsOf
  simp only [List.mem_filter, bne_iff_ne, ne_eq]
  constructor
  · rintro ⟨hd, hne⟩
    exact ⟨(hsym t c).mp hd, fun h => hne h.symm⟩
  · rintro ⟨hd, hne⟩
    exact ⟨(hsym c t).mp hd, fun h => hne h.symm⟩

theorem mutualGrid_symm (cells : List Cell) :
    ∀ a b : Cell, a ∈ (mutualGrid cells).gridDisk1 b ↔ b ∈ (mutualGrid cells).gridDisk1 a := by
  intro a b
  unfold mutualGrid
  by_cases hb : b ∈ cells <;> by_cases ha : a ∈ cells <;> simp [ha, hb]
  · intro h
    exact ha (h ▸ hb)
  · intro h
    exact hb (h ▸ ha)
  · exact eq_comm

theorem isSwapSign_eq_true_iff (vs : List Point) :
    isSwapSign vs = true ↔ claimStraddles vs := by
  unfold isSwapSign claimStraddles
  rw [List.any_eq_true]
  have key : ∀ p : Point × Point,
      (MAX_LNG < |max p.1.1 p.2.1 - min p.1.1 p.2.1|) ↔ (MAX_LNG < |p.1.1 - p.2.1|) := by
    intro p
    rw [(max_sub_min_eq_abs p.1.1 p.2.1).trans (abs_sub_comm p.2.1 p.1.1), abs_abs]
  constructor
  · rintro ⟨p, hp, hd⟩
    exact ⟨p, hp, (key p).mp (of_decide_eq_true hd)⟩
  · rintro ⟨p, hp, hd⟩
    exact ⟨p, hp, decide_eq_true ((key p).mpr hd)⟩

theorem shiftNegative_eq_claimShift (vs : List Point) :
    shiftNegative vs = vs.map claimShift := by
  unfold shiftNegative claimShift
  have h : (2 : ℚ) * MAX_LNG = 360 := by norm_num [MAX_LNG]
  simp only [h]

/-- C1: the claim states that `live_neighbor_count(c)` counts the Alive cells
at grid distance exactly 1 from `c`, `c` itself excluded.  The code counts
over the whole `grid_disk(1)`, which contains `c`: in a universe whose only
Alive cell is `c = 0` itself, the code returns 1 while the claimed count
is 0.  (Inside `tick` the neighbor list does filter the center out, so the
missing filter here is a slip.) -/
theorem live_neighbor_count_includes_center_bug :
    live_neighbor_count gC1 mC1 0 = 1 ∧ claimedNeighborCount gC1 mC1 0 = 0 ∧
    (1 : Nat) ≠ 0 := by decide

/-- C2: the claim states the classic rule table over K = live neighbors
excluding the cell itself.  Because `live_neighbor_count` also counts the
cell (C1), an Alive cell with K = 1 is kept Alive by `tick` even though the
rule table (`nextCellState`) maps (Alive, 1) to Dead: two adjacent Alive
cells survive forever. -/
theorem tick_rule_table_divergence :
    lookup mPair 0 = some CellState.Alive ∧
    claimedNeighborCount gPair mPair 0 = 1 ∧
    lookup (tick gPair mPair) 0 = some CellState.Alive ∧
    nextCellState CellState.Alive 1 = CellState.Dead := by decide

/-- C3 counterexample: a cell that is tracked Dead, adjacent to a tracked
cell, with exactly 2 live neighbors, is NOT Alive after `tick` — the
reproduction loop skips tracked cells and the rule table keeps Dead cells
Dead, contradicting the claim's "Dead (or untracked)". -/
theorem tracked_dead_cell_not_born :
    lookup mTriDead 5 = some CellState.Dead ∧
    (lookup mTriDead 1).isSome ∧ 1 ∈ neighborsOf gTri 5 ∧
    claimedNeighborCount gTri mTriDead 5 = 2 ∧
    lookup (tick gTri mTriDead) 5 = some CellState.Dead ∧
    some CellState.Dead ≠ some CellState.Alive := by decide

/-- C3 (amended): for a symmetric grid, every cell UNTRACKED in the pre-tick
map that is adjacent to at least one tracked cell and has exactly 2 live
neighbors in the pre-tick snapshot is Alive in the post-tick map; every
TRACKED Dead cell instead remains Dead after `tick` (it is never revived,
whatever its neighbor count); and an untracked cell with zero tracked
neighbors is never Alive in the post-tick map. -/
theorem tick_birth_rule_untracked (g : Grid) (m : CellMap)
    (hnd : (m.map Prod.fst).Nodup)
    (hsym : ∀ a b : Cell, a ∈ g.gridDisk1 b ↔ b ∈ g.gridDisk1 a) :
    (∀ c, lookup m c = none →
        (∃ t, (lookup m t).isSome ∧ t ∈ neighborsOf g c) →
        claimedNeighborCount g m c = 2 →
        lookup (tick g m) c = some CellState.Alive) ∧
    (∀ c, lookup m c = some CellState.Dead →
        lookup (tick g m) c = some CellState.Dead) ∧
    (∀ c, lookup m c = none →
        (¬ ∃ t, (lookup m t).isSome ∧ t ∈ neighborsOf g c) →
        lookup (tick g m) c ≠ some CellState.Alive) := by
  refine ⟨?_, ?_, ?_⟩
  · rintro c hc ⟨t, ht, htc⟩ hk
    have hdead : isAliveIn m c = false := by
      unfold isAliveIn
      rw [hc]
    have hlnc : live_neighbor_count g m c = 2 := by
      rw [← claimedNeighborCount_eq g m c hdead]
      exact hk
    rw [tick_lookup g m hnd c]
    unfold tickSpec
    simp only [hc]
    rw [if_pos ⟨(exists_entry_iff g m c).mpr ⟨t, ht, (neighborsOf_symm hsym).mp htc⟩, hlnc⟩]
  · intro c hc
    rw [tick_lookup g m hnd c]
    unfold tickSpec
    simp only [hc]
    rfl
  · intro c hc hnone
    rw [tick_lookup g m hnd c]
    unfold tickSpec
    simp only [hc]
    rw [if_neg (fun hcond => hnone (by
      rcases (exists_entry_iff g m c).mp hcond.1 with ⟨t, ht, hct⟩
      exact ⟨t, ht, (neighborsOf_symm hsym).mpr hct⟩))]
    simp

theorem tick_birth_rule_untracked_witness :
    ((mTriLive.map Prod.fst).Nodup ∧ (mTriDead.map Prod.fst).Nodup) ∧
    lookup (tick gTri mTriLive) 5 = some CellState.Alive ∧
    lookup (tick gTri mTriDead) 5 = some CellState.Dead ∧
    lookup (tick gTri mTriLive) 9 ≠ some CellState.Alive := by
  have h1 : (mTriLive.map Prod.fst).Nodup := by decide
  have h2 : (mTriDead.map Prod.fst).Nodup := by decide
  have hthmL := tick_birth_rule_untracked gTri mTriLive h1 (mutualGrid_symm [1, 2, 5])
  have hthmD := tick_birth_rule_untracked gTri mTriDead h2 (mutualGrid_symm [1, 2, 5])
  refine ⟨⟨h1, h2⟩, ?_, ?_, ?_⟩
  · exact hthmL.1 5 (by decide) ⟨1, by decide, by decide⟩ (by decide)
  · exact hthmD.2.1 5 (by decide)
  · refine hthmL.2.2 9 (by decide) ?_
    have hnb : neighborsOf gTri 9 = [] := by decide
    rintro ⟨t, -, ht⟩
    rw [hnb] at ht
    exact List.not_mem_nil t ht

/-- C4: an untracked cell enters the post-tick map iff it lies at grid
distance 1 of some tracked cell and its live-neighbor count against the
pre-tick snapshot is exactly 2; and whenever it enters, it enters Alive.
There is no other path by which an untracked cell enters the map. -/
theorem tick_untracked_birth_iff (g : Grid) (m : CellMap)
    (hnd : (m.map Prod.fst).Nodup) (c : Cell) (hc : lookup m c = none) :
    ((lookup (tick g m) c).isSome ↔
      ((∃ t, (lookup m t).isSome ∧ c ∈ neighborsOf g t) ∧
        claimedNeighborCount g m c = 2)) ∧
    (∀ s, lookup (tick g m) c = some s → s = CellState.Alive) := by
  have hdead : isAliveIn m c = false := by
    unfold isAliveIn
    rw [hc]
  have hcnt : claimedNeighborCount g m c = live_neighbor_count g m c :=
    claimedNeighborCount_eq g m c hdead
  rw [tick_lookup g m hnd c]
  unfold tickSpec
  simp only [hc]
  constructor
  · constructor
    · intro hsome
      by_cases hcond : (∃ e ∈ m, c ∈ neighborsOf g e.1) ∧ live_neighbor_count g m c = 2
      · exact ⟨(exists_entry_iff g m c).mp hcond.1, by rw [hcnt]; exact hcond.2⟩
      · rw [if_neg hcond] at hsome
        exact absurd hsome (by simp)
    · rintro ⟨hex, hk⟩
      rw [if_pos ⟨(exists_entry_iff g m c).mpr hex, by rw [← hcnt]; exact hk⟩]
      rfl
  · intro s hs
    by_cases hcond : (∃ e ∈ m, c ∈ neighborsOf g e.1) ∧ live_neighbor_count g m c = 2
    · rw [if_pos hcond] at hs
      exact (Option.some.injEq _ _ ▸ hs).symm
    · rw [if_neg hcond] at hs
      exact Option.noConfusion hs

theorem tick_untracked_birth_iff_witness :
    ((mTriLive.map Prod.fst).Nodup ∧ lookup mTriLive 5 = none) ∧
    ((lookup (tick gTri mTriLive) 5).isSome ↔
      ((∃ t, (lookup mTriLive t).isSome ∧ (5 : Cell) ∈ neighborsOf gTri t) ∧
        claimedNeighborCount gTri mTriLive 5 = 2)) ∧
    (∀ s, lookup (tick gTri mTriLive) 5 = some s → s = CellState.Alive) := by
  have h1 : (mTriLive.map Prod.fst).Nodup := by decide
  have h2 : lookup mTriLive 5 = none := by decide
  exact ⟨⟨h1, h2⟩, tick_untracked_birth_iff gTri mTriLive h1 5 h2⟩

/-- C5: the claim states that `Universe::new` fails with an InvalidResolution
error surfaced to the caller when the resolution is not accepted by the grid
capability.  The source instead performs
`unsafe { Resolution::try_from(resolution).unwrap_unchecked() }`: on a value
the capability rejects (e.g. 16) this is undefined behavior, and the
function's signature (`-> Self`) has no error channel at all. -/
theorem universeNew_unchecked_resolution :
    resolutionTryFrom 16 = none ∧
    universeNew [0] 16 = NewOutcome.undefinedBehavior := by decide

/-- C6: the post-tick map is a function of the pre-tick map contents alone —
any two universes whose maps agree pointwise (whatever their hash-map
iteration orders) produce pointwise-equal post-tick maps; all reads during
`tick` reference the pre-tick snapshot. -/
theorem tick_determined_by_map_contents (g : Grid) (m₁ m₂ : CellMap)
    (h₁ : (m₁.map Prod.fst).Nodup) (h₂ : (m₂.map Prod.fst).Nodup)
    (h : ∀ c, lookup m₁ c = lookup m₂ c) (c : Cell) :
    lookup (tick g m₁) c = lookup (tick g m₂) c := by
  rw [tick_lookup g m₁ h₁ c, tick_lookup g m₂ h₂ c]
  have hlnc : live_neighbor_count g m₁ c = live_neighbor_count g m₂ c :=
    live_neighbor_count_congr g h c
  have hex : (∃ e ∈ m₁, c ∈ neighborsOf g e.1) ↔ (∃ e ∈ m₂, c ∈ neighborsOf g e.1) := by
    rw [exists_entry_iff, exists_entry_iff]
    constructor
    · rintro ⟨t, ht, hct⟩
      exact ⟨t, by rw [← h t]; exact ht, hct⟩
    · rintro ⟨t, ht, hct⟩
      exact ⟨t, by rw [h t]; exact ht, hct⟩
  unfold tickSpec
  rw [h c, hlnc]
  cases lookup m₂ c with
  | some s => rfl
  | none => exact if_congr (and_congr_left' hex) rfl rfl

theorem tick_determined_by_map_contents_witness :
    (∀ c, lookup mPair c = lookup mPairRev c) ∧
    (∀ c, lookup (tick gPair mPair) c = lookup (tick gPair mPairRev) c) := by
  have h : ∀ c, lookup mPair c = lookup mPairRev c := by
    intro c
    by_cases h0 : (0 : Nat) = c
    · by_cases h1 : (1 : Nat) = c
      · omega
      · simp [mPair, mPairRev, lookup, h0, h1]
    · by_cases h1 : (1 : Nat) = c <;> simp [mPair, mPairRev, lookup, h0, h1]
  exact ⟨h, fun c =>
    tick_determined_by_map_contents gPair mPair mPairRev (by decide) (by decide) h c⟩

/-- C7: after `render`, the map is the restriction of the pre-render map to
its Alive entries: Dead entries are removed, Alive entries keep state Alive,
nothing is added — in particular no Dead entry remains. -/
theorem render_restricts_to_alive (g : Grid) (m : CellMap)
    (hnd : (m.map Prod.fst).Nodup) (c : Cell) :
    lookup (render g m).2 c =
      if lookup m c = some CellState.Alive then some CellState.Alive else none := by
  show lookup ((renderTombstones m).foldl removeKey m) c = _
  rw [foldl_removeKey_lookup]
  by_cases hd : c ∈ renderTombstones m
  · have hdc : lookup m c = some CellState.Dead := (mem_renderTombstones_iff m hnd c).mp hd
    simp [hd, hdc]
  · have hnd2 : lookup m c ≠ some CellState.Dead :=
      fun h => hd ((mem_renderTombstones_iff m hnd c).mpr h)
    cases hmc : lookup m c with
    | none => simp [hd, hmc]
    | some s =>
        cases s
        · exact absurd hmc hnd2
        · simp [hd, hmc]

theorem render_restricts_to_alive_witness :
    (mMixed.map Prod.fst).Nodup ∧
    lookup (render gBound mMixed).2 1 =
      (if lookup mMixed 1 = some CellState.Alive then some CellState.Alive else none) := by
  have h1 : (mMixed.map Prod.fst).Nodup := by decide
  exact ⟨h1, render_restricts_to_alive gBound mMixed h1 1⟩

/-- C8: `render` emits exactly one polygon feature per Alive entry — the
feature list is the Alive keys (no duplicates, membership iff Alive in the
map at call time) mapped through ring construction — and every emitted ring
is closed: its first point equals its last point. -/
theorem render_features_complete (g : Grid) (m : CellMap)
    (hnd : (m.map Prod.fst).Nodup) (hb : ∀ c, g.boundary c ≠ []) :
    (render g m).1 = (aliveCells m).map (cellToRing g) ∧
    (aliveCells m).Nodup ∧
    (∀ c, c ∈ aliveCells m ↔ lookup m c = some CellState.Alive) ∧
    (∀ r ∈ (render g m).1, r ≠ [] ∧ r.head? = r.getLast?) := by
  refine ⟨?_, aliveCells_nodup m hnd, fun c => mem_aliveCells_iff m hnd c, ?_⟩
  · show renderFeatures g m = (aliveCells m).map (cellToRing g)
    unfold renderFeatures aliveCells
    rw [List.map_map]
    rfl
  · intro r hr
    rcases List.mem_map.mp hr with ⟨e, he, hre⟩
    rw [← hre]
    exact projectBoundary_closed (g.boundary e.1) (hb e.1)

theorem render_features_complete_witness :
    ((mMixed.map Prod.fst).Nodup ∧ (∀ c, gBound.boundary c ≠ [])) ∧
    ((render gBound mMixed).1 = (aliveCells mMixed).map (cellToRing gBound) ∧
     (aliveCells mMixed).Nodup ∧
     (∀ c, c ∈ aliveCells mMixed ↔ lookup mMixed c = some CellState.Alive) ∧
     (∀ r ∈ (render gBound mMixed).1, r ≠ [] ∧ r.head? = r.getLast?)) := by
  have h1 : (mMixed.map Prod.fst).Nodup := by decide
  have h2 : ∀ c, gBound.boundary c ≠ [] := fun c => by simp [gBound]
  exact ⟨⟨h1, h2⟩, render_features_complete gBound mMixed h1 h2⟩

/-- C9: if some consecutive pair of the original open chain has longitudes
differing in absolute value by more than 180°, every vertex with negative
longitude is shifted by +360° and the others are unchanged; if no such pair
exists all vertices are unchanged; in both cases the ring is closed by
appending a duplicate of the (possibly shifted) first point. -/
theorem projectBoundary_antimeridian (vs : List Point) :
    (claimStraddles vs →
        projectBoundary vs = vs.map claimShift ++ (vs.map claimShift).take 1) ∧
    (¬ claimStraddles vs → projectBoundary vs = vs ++ vs.take 1) := by
  constructor
  · intro h
    have hs : isSwapSign vs = true := (isSwapSign_eq_true_iff vs).mpr h
    simp [projectBoundary, hs, shiftNegative_eq_claimShift, closeRing_eq_append_take]
  · intro h
    have hs : isSwapSign vs = false :=
      Bool.eq_false_iff.mpr (fun ht => h ((isSwapSign_eq_true_iff vs).mp ht))
    simp [projectBoundary, hs, closeRing_eq_append_take]

theorem projectBoundary_antimeridian_witness :
    claimStraddles straddleChain ∧
      projectBoundary straddleChain =
        straddleChain.map claimShift ++ (straddleChain.map claimShift).take 1 := by
  have hstr : claimStraddles straddleChain := by
    unfold claimStraddles straddleChain
    refine ⟨((179, 0), (-179, 1)), ?_, ?_⟩
    · simp
    · norm_num [MAX_LNG]
  exact ⟨hstr, (projectBoundary_antimeridian straddleChain).1 hstr⟩

/-- C10: `tick` never removes an entry — every cell tracked before the tick
is still tracked after it, so the post-tick key set contains the pre-tick
key set. -/
theorem tick_preserves_tracked_cells (g : Grid) (m : CellMap) (c : Cell)
    (h : (lookup m c).isSome) : (lookup (tick g m) c).isSome := by
  unfold tick
  exact foldl_tickEntry_isSome g m m m c h

theorem tick_preserves_tracked_cells_witness :
    (lookup mTriDead 5).isSome ∧ (lookup (tick gTri mTriDead) 5).isSome :=
  ⟨by decide, tick_preserves_tracked_cells gTri mTriDead 5 (by decide)⟩

end HexLife
